import Mathlib

/-!
Verification of the CRM → Umbraco event reconciliation and mapping engine.

The definitions below are a shallow embedding of `src/utils/event.utils.ts`:
strings are Lean `String`s, JS `number` event ids are `Nat`, JS `null`able
fields are `Option`s, and the loosely typed JSON payloads assembled by the
mapper are values of an explicit `JValue` type.  The ambient `Math.random`
source is threaded explicitly: call number `k` of `generateGuid` reads the
stream `rnd k : Nat → Nat`, whose values model `(Math.random() * 16) | 0`
(hence are reduced mod 16).
-/

set_option maxHeartbeats 1000000

namespace EventSync

/-- JavaScript line terminators: `.` in a regex without the `s` flag matches
any character except these four. -/
def isLineTerm (c : Char) : Bool :=
  c == '\n' || c == '\r' || c == ' ' || c == ' '

/-- Whether `^"(.*)"$` (no flags) matches the string: first and last characters
are `"`, they are distinct (length ≥ 2), and the characters between them
contain no line terminator (JS `.` does not match line terminators). -/
def quoteWrapped (s : List Char) : Bool :=
  decide (2 ≤ s.length) && (s.head? == some '"') && (s.getLast? == some '"')
    && ((s.drop 1).dropLast.all (fun c => !isLineTerm c))

/-- Character-level model of
`dateString.replace(/^"(.*)"$/, "$1")`: if the regex matches, the result is
the capture group (everything strictly between the two quotes), otherwise the
string is returned unchanged. -/
def normalizeChars (s : List Char) : List Char :=
  if quoteWrapped s then (s.drop 1).dropLast else s

/-- `normalizeDateString` from `src/utils/event.utils.ts`. -/
def normalizeDateString (s : String) : String :=
  ⟨normalizeChars s.data⟩

/-- Modelled from the spec: "strip a single layer of wrapping quote characters"
read literally — whenever the first and last characters are quotes they are
removed, with no condition on the characters in between.  Used to compare the
spec's wording against the implementation's regex. -/
def specStripQuotes (s : List Char) : Bool × List Char :=
  if decide (2 ≤ s.length) && (s.head? == some '"') && (s.getLast? == some '"')
  then (true, (s.drop 1).dropLast) else (false, s)

/-- Spec-worded quote stripping on `String`s. -/
def specStripQuoteLayer (s : String) : String :=
  ⟨(specStripQuotes s.data).2⟩

/-- ASCII lower-casing, modelling `String.prototype.toLowerCase` on the ASCII
strings this system compares. -/
def lowerStr (s : String) : String :=
  ⟨s.data.map Char.toLower⟩

/-- The `socialMedia` record of a CRM event (five named channels). -/
structure SocialMedia where
  facebook : String
  linkedIn : String
  instagram : String
  youtube : String
  tiktok : String
deriving DecidableEq

/-- The `CrmEvent` interface from `src/types/events.types.ts`. -/
structure CrmEvent where
  title : String
  featuredImage : String
  pageContent : String
  imagesCarousel : String
  startDate : String
  endDate : String
  location : Option String
  eventAudiences : Option String
  eventSectors : List String
  eventId : Nat
  eventType : String
  eventVenues : List String
  eventOrganiser : String
  websiteURL : Option String
  dWTCEvent : Bool
  eventLogo : Option String
  socialMedia : SocialMedia
  lastUpdatedDate : String
  WebsiteStatus : String
deriving DecidableEq

/-- The `UmbracoEvent` interface from `src/types/events.types.ts`. -/
structure UmbracoEvent where
  id : String
  eventId : String
  lastUpdatedDate : String
  name : String
deriving DecidableEq

/-- JS truthiness of a nullable string (`null` and `""` are falsy). -/
def optTruthy : Option String → Bool
  | some s => s ≠ ""
  | none => false

/-- `filterEventsByVenue` from `src/utils/event.utils.ts`: keeps events whose
`eventVenues` contains `venue` and whose `WebsiteStatus` lower-cases to
`"online"`.  (`event.eventVenues &&` is vacuous: the field is an array, and
arrays are always truthy.) -/
def filterEventsByVenue (events : List CrmEvent) (venue : String) : List CrmEvent :=
  events.filter (fun e =>
    e.eventVenues.contains venue && (lowerStr e.WebsiteStatus == "online"))

/-- The `SyncResult` interface. -/
structure SyncResult where
  toUpdate : List (UmbracoEvent × CrmEvent)
  toCreate : List CrmEvent
deriving DecidableEq

/-- The `umbracoMap` lookup built by `compareEvents`: `forEach`/`Map.set`
gives one entry per distinct `eventId`, the last occurrence winning. -/
def umbracoLookup (evs : List UmbracoEvent) (key : String) : Option UmbracoEvent :=
  match evs with
  | [] => none
  | e :: rest =>
    match umbracoLookup rest key with
    | some u => some u
    | none => if e.eventId = key then some e else none

/-- `compareEvents` from `src/utils/event.utils.ts`: for each CRM event in
input order, look its stringified id up in the CMS map; no match appends to
`toCreate`; a match with differing normalized `lastUpdatedDate`s appends the
pair to `toUpdate`; otherwise the event is dropped. -/
def compareEvents (crmEvents : List CrmEvent) (umbracoEvents : List UmbracoEvent) :
    SyncResult :=
  match crmEvents with
  | [] => ⟨[], []⟩
  | c :: rest =>
    let r := compareEvents rest umbracoEvents
    match umbracoLookup umbracoEvents (toString c.eventId) with
    | some u =>
      if normalizeDateString c.lastUpdatedDate = normalizeDateString u.lastUpdatedDate
      then r
      else ⟨(u, c) :: r.toUpdate, r.toCreate⟩
    | none => ⟨r.toUpdate, c :: r.toCreate⟩

/-- The three reconciliation outcomes for a CRM event. -/
inductive SyncOutcome where
  | dropped
  | routedToUpdate
  | routedToCreate
deriving DecidableEq

/-- The outcome `compareEvents` assigns to a single CRM event given the CMS
collection: a total classification function. -/
def classify (umbracoEvents : List UmbracoEvent) (c : CrmEvent) : SyncOutcome :=
  match umbracoLookup umbracoEvents (toString c.eventId) with
  | none => .routedToCreate
  | some u =>
    if normalizeDateString c.lastUpdatedDate = normalizeDateString u.lastUpdatedDate
    then .dropped
    else .routedToUpdate

/-- The events `compareEvents` drops as already synchronized. -/
def droppedEvents (crmEvents : List CrmEvent) (umbracoEvents : List UmbracoEvent) :
    List CrmEvent :=
  crmEvents.filter (fun c => classify umbracoEvents c == .dropped)

theorem compare_toCreate_eq (crm : List CrmEvent) (umb : List UmbracoEvent) :
    (compareEvents crm umb).toCreate
      = crm.filter (fun c => (umbracoLookup umb (toString c.eventId)).isNone) := by
  induction crm with
  | nil => rfl
  | cons c rest ih =>
    simp only [compareEvents, List.filter_cons]
    cases h : umbracoLookup umb (toString c.eventId) with
    | none => simp [h, ih]
    | some u =>
      by_cases hd : normalizeDateString c.lastUpdatedDate
          = normalizeDateString u.lastUpdatedDate <;>
        simp [h, hd, ih]

theorem compare_toUpdate_eq (crm : List CrmEvent) (umb : List UmbracoEvent) :
    (compareEvents crm umb).toUpdate
      = crm.filterMap (fun c =>
          match umbracoLookup umb (toString c.eventId) with
          | some u =>
            if normalizeDateString c.lastUpdatedDate
                = normalizeDateString u.lastUpdatedDate
            then none
            else some (u, c)
          | none => none) := by
  induction crm with
  | nil => rfl
  | cons c rest ih =>
    simp only [compareEvents, List.filterMap_cons]
    cases h : umbracoLookup umb (toString c.eventId) with
    | none => simp [h, ih]
    | some u =>
      by_cases hd : normalizeDateString c.lastUpdatedDate
          = normalizeDateString u.lastUpdatedDate <;>
        simp [h, hd, ih]

theorem umbracoLookup_lastWins (umb : List UmbracoEvent) (key : String) :
    umbracoLookup umb key = umb.reverse.find? (fun u => u.eventId == key) := by
  induction umb with
  | nil => rfl
  | cons e rest ih =>
    simp only [umbracoLookup, List.reverse_cons, List.find?_append, ih]
    cases h : rest.reverse.find? (fun u => u.eventId == key) with
    | some u => rfl
    | none =>
      simp only [Option.none_or, List.find?_singleton]
      by_cases he : e.eventId = key <;> simp [he]

/-! ### GUID generation (`generateGuid`) -/

/-- The sixteen lowercase hexadecimal digit characters. -/
def hexChars : List Char :=
  "0123456789abcdef".data

/-- `v.toString(16)` for `v < 16`: the lowercase hex digit of `n`. -/
def hexDigit : Nat → Char
  | 0 => '0'
  | 1 => '1'
  | 2 => '2'
  | 3 => '3'
  | 4 => '4'
  | 5 => '5'
  | 6 => '6'
  | 7 => '7'
  | 8 => '8'
  | 9 => '9'
  | 10 => 'a'
  | 11 => 'b'
  | 12 => 'c'
  | 13 => 'd'
  | 14 => 'e'
  | _ => 'f'

/-- The template string `"xxxxxxxx-xxxx-4xxx-yxxx-xxxxxxxxxxxx"`. -/
def guidTemplate : List Char :=
  ['x', 'x', 'x', 'x', 'x', 'x', 'x', 'x', '-', 'x', 'x', 'x', 'x', '-',
   '4', 'x', 'x', 'x', '-', 'y', 'x', 'x', 'x', '-',
   'x', 'x', 'x', 'x', 'x', 'x', 'x', 'x', 'x', 'x', 'x', 'x']

/-- The `replace(/[xy]/g, ...)` callback loop of `generateGuid`: the `i`-th
`x`/`y` occurrence consumes random draw `r i` (already reduced mod 16,
modelling `(Math.random() * 16) | 0`); an `x` becomes the hex digit of `r`,
a `y` the hex digit of `(r & 0x3) | 0x8`; other characters pass through. -/
def genGuidAux : List Char → Nat → (Nat → Nat) → List Char
  | [], _, _ => []
  | c :: cs, i, r =>
    if c = 'x' then hexDigit (r i % 16) :: genGuidAux cs (i + 1) r
    else if c = 'y' then hexDigit ((r i % 16) &&& 3 ||| 8) :: genGuidAux cs (i + 1) r
    else c :: genGuidAux cs i r

/-- `generateGuid` from `src/utils/event.utils.ts`, parameterized by the
random draw stream. -/
def generateGuid (r : Nat → Nat) : List Char :=
  genGuidAux guidTemplate 0 r

/-- The global hyphen-removing `replace` applied to a guid. -/
def stripHyphens (s : List Char) : List Char :=
  s.filter (fun c => c ≠ '-')

/-- The rendered Umbraco URI form of a guid:
`umb://element/` followed by the guid with hyphens stripped. -/
def elementUdi (guid : List Char) : String :=
  "umb://element/" ++ String.mk (stripHyphens guid)

/-- The guid produced by the `k`-th `generateGuid` call when the ambient
random source is modelled as `rnd : Nat → Nat → Nat` (stream per call). -/
def guidAt (rnd : Nat → Nat → Nat) (k : Nat) : List Char :=
  generateGuid (rnd k)

theorem hexDigit_mem (n : Nat) : hexDigit n ∈ hexChars := by
  rcases n with _|_|_|_|_|_|_|_|_|_|_|_|_|_|_|n <;>
    first
      | decide
      | (show 'f' ∈ hexChars
         decide)

theorem hexDigit_ne_hyphen (n : Nat) : (hexDigit n = '-') = False := by
  simp only [eq_iff_iff, iff_false]
  intro h
  have := hexDigit_mem n
  rw [h] at this
  revert this
  decide

theorem generateGuid_explicit (r : Nat → Nat) :
    generateGuid r =
      [hexDigit (r 0 % 16), hexDigit (r 1 % 16), hexDigit (r 2 % 16),
       hexDigit (r 3 % 16), hexDigit (r 4 % 16), hexDigit (r 5 % 16),
       hexDigit (r 6 % 16), hexDigit (r 7 % 16), '-',
       hexDigit (r 8 % 16), hexDigit (r 9 % 16), hexDigit (r 10 % 16),
       hexDigit (r 11 % 16), '-',
       '4', hexDigit (r 12 % 16), hexDigit (r 13 % 16), hexDigit (r 14 % 16), '-',
       hexDigit ((r 15 % 16) &&& 3 ||| 8), hexDigit (r 16 % 16),
       hexDigit (r 17 % 16), hexDigit (r 18 % 16), '-',
       hexDigit (r 19 % 16), hexDigit (r 20 % 16), hexDigit (r 21 % 16),
       hexDigit (r 22 % 16), hexDigit (r 23 % 16), hexDigit (r 24 % 16),
       hexDigit (r 25 % 16), hexDigit (r 26 % 16), hexDigit (r 27 % 16),
       hexDigit (r 28 % 16), hexDigit (r 29 % 16), hexDigit (r 30 % 16)] := by
  rfl

theorem stripHyphens_guid (r : Nat → Nat) :
    stripHyphens (generateGuid r) =
      [hexDigit (r 0 % 16), hexDigit (r 1 % 16), hexDigit (r 2 % 16),
       hexDigit (r 3 % 16), hexDigit (r 4 % 16), hexDigit (r 5 % 16),
       hexDigit (r 6 % 16), hexDigit (r 7 % 16),
       hexDigit (r 8 % 16), hexDigit (r 9 % 16), hexDigit (r 10 % 16),
       hexDigit (r 11 % 16),
       '4', hexDigit (r 12 % 16), hexDigit (r 13 % 16), hexDigit (r 14 % 16),
       hexDigit ((r 15 % 16) &&& 3 ||| 8), hexDigit (r 16 % 16),
       hexDigit (r 17 % 16), hexDigit (r 18 % 16),
       hexDigit (r 19 % 16), hexDigit (r 20 % 16), hexDigit (r 21 % 16),
       hexDigit (r 22 % 16), hexDigit (r 23 % 16), hexDigit (r 24 % 16),
       hexDigit (r 25 % 16), hexDigit (r 26 % 16), hexDigit (r 27 % 16),
       hexDigit (r 28 % 16), hexDigit (r 29 % 16), hexDigit (r 30 % 16)] := by
  rw [generateGuid_explicit]
  simp [stripHyphens, List.filter, hexDigit_ne_hyphen]

theorem variantDigit_mem (m : Nat) :
    hexDigit ((m % 16) &&& 3 ||| 8) ∈ (['8', '9', 'a', 'b'] : List Char) := by
  have h : m % 16 < 16 := Nat.mod_lt _ (by decide)
  set t := m % 16 with ht
  interval_cases t <;> decide

/-! ### JSON-like values: the loosely typed payload objects the mapper builds -/

/-- A JSON value: the shape of the untyped (`any`) object literals the source
assembles.  Object fields are an ordered association list, as in JS. -/
inductive JValue where
  | null
  | jbool (b : Bool)
  | jstr (s : String)
  | jarr (xs : List JValue)
  | jobj (fields : List (String × JValue))

/-- Property read `o[key]`: first matching key, `none` for `undefined`. -/
def getKey : List (String × JValue) → String → Option JValue
  | [], _ => none
  | (k, v) :: fs, key => if k = key then some v else getKey fs key

/-- Property write `o[key] = v`: overwrite in place if the key exists,
otherwise append (JS property insertion order). -/
def setKey : List (String × JValue) → String → JValue → List (String × JValue)
  | [], key, v => [(key, v)]
  | (k, w) :: fs, key, v =>
    if k = key then (k, v) :: fs else (k, w) :: setKey fs key v

/-- Property deletion `delete o[key]`. -/
def removeKey : List (String × JValue) → String → List (String × JValue)
  | [], _ => []
  | (k, w) :: fs, key =>
    if k = key then removeKey fs key else (k, w) :: removeKey fs key

/-- JS truthiness of a JSON value (`undefined` is modelled as a missing key,
i.e. `none` at the `Option JValue` level). -/
def truthy : JValue → Bool
  | .null => false
  | .jbool b => b
  | .jstr s => s ≠ ""
  | .jarr _ => true
  | .jobj _ => true

/-- The fields of an object value (`[]` for non-objects, whose property reads
all yield `undefined` in the cases this model covers). -/
def objFields : JValue → List (String × JValue)
  | .jobj fs => fs
  | _ => []

theorem getKey_setKey_self (fs : List (String × JValue)) (key : String) (v : JValue) :
    getKey (setKey fs key v) key = some v := by
  induction fs with
  | nil => simp [setKey, getKey]
  | cons p fs ih =>
    obtain ⟨k, w⟩ := p
    by_cases h : k = key <;> simp [setKey, getKey, h, ih]

theorem getKey_setKey_ne (fs : List (String × JValue)) (key key' : String) (v : JValue)
    (h : key' ≠ key) : getKey (setKey fs key v) key' = getKey fs key' := by
  induction fs with
  | nil => simp [setKey, getKey, Ne.symm h]
  | cons p fs ih =>
    obtain ⟨k, w⟩ := p
    simp only [setKey]
    by_cases hk : k = key
    · subst hk
      simp [getKey, Ne.symm h]
    · rw [if_neg hk]
      by_cases hk' : k = key' <;> simp [getKey, hk', ih]

theorem getKey_removeKey_self (fs : List (String × JValue)) (key : String) :
    getKey (removeKey fs key) key = none := by
  induction fs with
  | nil => simp [removeKey, getKey]
  | cons p fs ih =>
    obtain ⟨k, w⟩ := p
    by_cases h : k = key <;> simp [removeKey, getKey, h, ih]

theorem getKey_removeKey_ne (fs : List (String × JValue)) (key key' : String)
    (h : key' ≠ key) : getKey (removeKey fs key) key' = getKey fs key' := by
  induction fs with
  | nil => simp [removeKey, getKey]
  | cons p fs ih =>
    obtain ⟨k, w⟩ := p
    simp only [removeKey]
    by_cases hk : k = key
    · subst hk
      simp [getKey, Ne.symm h, ih]
    · rw [if_neg hk]
      by_cases hk' : k = key' <;> simp [getKey, hk', ih]

/-! ### Social-networks block list -/

/-- Whitespace for `String.prototype.trim` (ASCII whitespace, NBSP, BOM and
line terminators; the subset relevant to this system's inputs). -/
def isJsSpace (c : Char) : Bool :=
  c == ' ' || c == '\t' || c == '\x0b' || c == '\x0c' || c == ' '
    || c == '﻿' || isLineTerm c

/-- JS `trim`: strip leading and trailing whitespace. -/
def jsTrim (s : String) : String :=
  ⟨((s.data.dropWhile isJsSpace).reverse.dropWhile isJsSpace).reverse⟩

/-- A single outbound link object as emitted into block content. -/
structure LinkItem where
  icon : String
  name : Option String
  nodeName : Option String
  published : Bool
  queryString : Option String
  target : Option String
  trashed : Bool
  udi : Option String
  url : String
deriving DecidableEq

/-- The link object pushed for a social channel: fixed icon, target
`"_blank"`, the channel URL. -/
def socialLink (url : String) : LinkItem :=
  ⟨"icon-link", none, none, true, none, some "_blank", false, none, url⟩

/-- One `contentData` entry of the social-networks block list. -/
structure SocialContent where
  contentTypeKey : String
  udi : String
  socialNetwork : List String
  link : List LinkItem
deriving DecidableEq

/-- The social-networks block list: `layout` holds the `contentUdi` reference
of each entry (each layout entry is an object with that single key);
`settingsData` is always empty. -/
structure SocialBlockList where
  layout : List String
  contentData : List SocialContent
deriving DecidableEq

/-- The fixed, ordered channel list the source iterates (display name and
URL drawn from the `socialMedia` record). -/
def socialChannels (sm : SocialMedia) : List (String × String) :=
  [("Facebook", sm.facebook), ("LinkedIn", sm.linkedIn),
   ("Instagram", sm.instagram), ("Youtube", sm.youtube), ("TikTok", sm.tiktok)]

/-- The guard `network.url && network.url.trim() !== ""`. -/
def urlPresent (u : String) : Bool :=
  (u ≠ "") && (jsTrim u ≠ "")

/-- The `forEach` loop of `buildSocialNetworksBlockList`: channels passing the
URL guard consume one guid (call counter `k`) and push one layout entry and
one content entry; blank channels are skipped without consuming a guid. -/
def buildSocialAux : List (String × String) → (Nat → Nat → Nat) → Nat →
    SocialBlockList × Nat
  | [], _, k => (⟨[], []⟩, k)
  | (nm, url) :: rest, rnd, k =>
    if urlPresent url then
      let udi := elementUdi (guidAt rnd k)
      let r := buildSocialAux rest rnd (k + 1)
      (⟨udi :: r.1.layout,
        ⟨"93f63d80-3828-4be7-9043-143bd100ca14", udi, [nm], [socialLink url]⟩
          :: r.1.contentData⟩, r.2)
    else buildSocialAux rest rnd k

/-- `buildSocialNetworksBlockList` from `src/utils/event.utils.ts`,
parameterized by the per-call random streams and the index of the next
`generateGuid` call. -/
def buildSocialNetworksBlockList (sm : SocialMedia) (rnd : Nat → Nat → Nat)
    (k : Nat) : SocialBlockList × Nat :=
  buildSocialAux (socialChannels sm) rnd k

theorem socialAux_udis (cs : List (String × String)) (rnd : Nat → Nat → Nat)
    (k : Nat) :
    (buildSocialAux cs rnd k).1.contentData.map SocialContent.udi
      = (buildSocialAux cs rnd k).1.layout := by
  induction cs generalizing k with
  | nil => rfl
  | cons c rest ih =>
    obtain ⟨nm, url⟩ := c
    by_cases h : urlPresent url = true <;> simp [buildSocialAux, h, ih]

theorem socialAux_names (cs : List (String × String)) (rnd : Nat → Nat → Nat)
    (k : Nat) :
    (buildSocialAux cs rnd k).1.contentData.map SocialContent.socialNetwork
      = (cs.filter (fun c => urlPresent c.2)).map (fun c => [c.1]) := by
  induction cs generalizing k with
  | nil => rfl
  | cons c rest ih =>
    obtain ⟨nm, url⟩ := c
    by_cases h : urlPresent url = true <;>
      simp [buildSocialAux, List.filter_cons, h, ih]

theorem socialAux_length (cs : List (String × String)) (rnd : Nat → Nat → Nat)
    (k : Nat) :
    (buildSocialAux cs rnd k).1.layout.length
      = (cs.filter (fun c => urlPresent c.2)).length := by
  induction cs generalizing k with
  | nil => rfl
  | cons c rest ih =>
    obtain ⟨nm, url⟩ := c
    by_cases h : urlPresent url = true <;>
      simp [buildSocialAux, List.filter_cons, h, ih]

theorem socialAux_urls (cs : List (String × String)) (rnd : Nat → Nat → Nat)
    (k : Nat) :
    (buildSocialAux cs rnd k).1.contentData.map SocialContent.link
      = (cs.filter (fun c => urlPresent c.2)).map (fun c => [socialLink c.2]) := by
  induction cs generalizing k with
  | nil => rfl
  | cons c rest ih =>
    obtain ⟨nm, url⟩ := c
    by_cases h : urlPresent url = true <;>
      simp [buildSocialAux, List.filter_cons, h, ih]

/-! ### Page blocks (create path) -/

/-- A nullable string rendered as a JSON value. -/
def optStrJ : Option String → JValue
  | some s => .jstr s
  | none => .null

/-- The empty nested rich-text `blocks` object. -/
def emptyRteBlocks : JValue :=
  .jobj [("layout", .null), ("contentData", .jarr []), ("settingsData", .jarr [])]

/-- A rich-text value: markup plus the empty nested blocks object. -/
def rteJ (markup : String) : JValue :=
  .jobj [("markup", .jstr markup), ("blocks", emptyRteBlocks)]

/-- A link object literal (all the source's link literals have
`published: true`, `queryString: null`, `trashed: false`). -/
def linkJ (icon : String) (nm nodeName target udi : Option String) (url : String) :
    JValue :=
  .jobj [("icon", .jstr icon), ("name", optStrJ nm), ("nodeName", optStrJ nodeName),
         ("published", .jbool true), ("queryString", .null),
         ("target", optStrJ target), ("trashed", .jbool false),
         ("udi", optStrJ udi), ("url", .jstr url)]

/-- An image reference literal (`crops: []`, `focalPoint: null`). -/
def imageJ (key mediaKey : String) : JValue :=
  .jobj [("key", .jstr key), ("mediaKey", .jstr mediaKey),
         ("crops", .jarr []), ("focalPoint", .null)]

/-- A typed link item rendered as its JSON literal. -/
def linkItemJ (l : LinkItem) : JValue :=
  .jobj [("icon", .jstr l.icon), ("name", optStrJ l.name),
         ("nodeName", optStrJ l.nodeName), ("published", .jbool l.published),
         ("queryString", optStrJ l.queryString), ("target", optStrJ l.target),
         ("trashed", .jbool l.trashed), ("udi", optStrJ l.udi),
         ("url", .jstr l.url)]

/-- A social content entry rendered as its JSON literal. -/
def socialContentJ (c : SocialContent) : JValue :=
  .jobj [("contentTypeKey", .jstr c.contentTypeKey), ("udi", .jstr c.udi),
         ("socialNetwork", .jarr (c.socialNetwork.map JValue.jstr)),
         ("link", .jarr (c.link.map linkItemJ))]

/-- A layout entry `\x7b contentUdi: udi \x7d`. -/
def layoutEntryJ (udi : String) : JValue :=
  .jobj [("contentUdi", .jstr udi)]

/-- The social-networks block list rendered as its JSON structure. -/
def socialToJ (s : SocialBlockList) : JValue :=
  .jobj [("layout", .jobj [("Umbraco.BlockList", .jarr (s.layout.map layoutEntryJ))]),
         ("contentData", .jarr (s.contentData.map socialContentJ)),
         ("settingsData", .jarr [])]

/-- The event-description markup written from CRM data
(`pageContent || ""` is the identity on strings). -/
def descriptionJ (crm : CrmEvent) : JValue :=
  rteJ ("<p>" ++ crm.pageContent ++ "</p>")

/-- The `organiserWebsite` value written into an event-description block. -/
def organiserWebsiteJ (url : String) (target : Option String) : JValue :=
  .jarr [linkJ "icon-link" none none target none url]

/-- Block 1: hero image (emitted with an empty image list). -/
def heroBlockJ (udi : String) : JValue :=
  .jobj [("contentTypeKey", .jstr "fd8b22e5-6560-40ea-8f24-4da5ca390b91"),
         ("udi", .jstr udi), ("image", .jarr [])]

/-- The fields of block 2 (event description): the `organiserWebsite` entry is
spread in only when `websiteURL` is truthy. -/
def eventDescFields (udi : String) (crm : CrmEvent) (target : Option String)
    (socJ : JValue) : List (String × JValue) :=
  [("contentTypeKey", .jstr "163c1761-234c-41f4-92e5-9d3d26186b79"),
   ("udi", .jstr udi),
   ("description", descriptionJ crm),
   ("organiserLogo", .jarr []),
   ("organiserName", .jstr crm.eventOrganiser)]
  ++ (match crm.websiteURL with
      | some u => if u = "" then [] else [("organiserWebsite", organiserWebsiteJ u target)]
      | none => [])
  ++ [("socialNetworks", socJ)]

/-- Block 2: event description with organiser info. -/
def eventDescBlockJ (udi : String) (crm : CrmEvent) (target : Option String)
    (socJ : JValue) : JValue :=
  .jobj (eventDescFields udi crm target socJ)

/-- English "Getting Here" static block. -/
def enGettingHereJ (udi : String) : JValue :=
  .jobj [("contentTypeKey", .jstr "c12716ad-f907-4621-b2e4-1b242d63974e"),
         ("udi", .jstr udi), ("logo", .jarr []),
         ("title", .jstr "Getting Here"),
         ("subtitle", rteJ "<p>Fastest, easiest route to the venue</p>"),
         ("description", rteJ "<p>Benefiting from Dubai South's world-class infrastructure, getting to Dubai Exhibition Centre is easy.</p>"),
         ("link", .jarr [linkJ "icon-article color-deep-purple" (some "Plan your visit")
            (some "Getting Here") none
            (some "umb://document/e079f2d2051b43259dbebe3c82bef8cf") "/dec/getting-here/"]),
         ("image", .jarr [imageJ "d092581b-7712-4dd5-8bb0-ecf82ec05332"
            "c4651b2c-4ca5-4c99-9dbb-816542f6d793"]),
         ("video", .jstr ""), ("leftImage", .jstr "1"),
         ("locationTitle", .jstr ""), ("locationItems", .jstr "")]

/-- English "Destination Dubai" list static block. -/
def enDestListJ (udi : String) : JValue :=
  .jobj [("contentTypeKey", .jstr "f4965fd3-b550-41c3-997e-1fd7059fe015"),
         ("udi", .jstr udi),
         ("title", .jstr "Destination Dubai"),
         ("subtitle", .jstr "Explore what's happening around Dubai this month"),
         ("description", .jstr ""), ("displayNotch", .jstr "0"),
         ("items", .jstr "")]

/-- English "Destination Dubai" card static block. -/
def enDestCardJ (udi : String) : JValue :=
  .jobj [("contentTypeKey", .jstr "c12716ad-f907-4621-b2e4-1b242d63974e"),
         ("udi", .jstr udi), ("logo", .jarr []),
         ("title", .jstr "Destination Dubai"),
         ("subtitle", rteJ "<p>Make the most of your time in Dubai<br><br></p>"),
         ("description", rteJ "<p>Experience the best of Dubai, with top attractions, world-class dining, shopping, and entertainment within reach of Dubai Exhibition Centre.</p>"),
         ("link", .jarr [linkJ "icon-article color-deep-purple" (some "Find out more")
            (some "Destination Dubai") none
            (some "umb://document/58a786fbf4ec4f9397dca699d4c74f01") "/dec/destination-dubai/"]),
         ("image", .jarr [imageJ "1d345bd4-ee7f-4a79-b3d0-1246a37e39dc"
            "aa57deab-5ea6-4a7e-a6ea-1afbc034cd2d"]),
         ("video", .jstr ""), ("leftImage", .jstr "0"),
         ("locationTitle", .jstr ""), ("locationItems", .jstr "")]

/-- Arabic image-gallery block (emitted with an empty image list). -/
def arGalleryJ (udi : String) : JValue :=
  .jobj [("contentTypeKey", .jstr "a56add81-856e-4004-8e61-30cc04962297"),
         ("udi", .jstr udi), ("images", .jarr [])]

/-- Arabic "Getting Here" static block. -/
def arGettingHereJ (udi : String) : JValue :=
  .jobj [("contentTypeKey", .jstr "c12716ad-f907-4621-b2e4-1b242d63974e"),
         ("udi", .jstr udi), ("logo", .jarr []),
         ("title", .jstr "كيفية الوصول"),
         ("subtitle", rteJ "<p class=\"p1\">أسهل وأسرع الطرق للوصول إلى المركز</p>"),
         ("description", rteJ "<p>يمكن الوصول إلى مركز دبي للمعارض بمنتهى السهولة وذلك بفضل البنية التحتية المتطورة في دبي الجنوب.</p>"),
         ("link", .jarr [linkJ "icon-article color-deep-purple" (some "خططوا لزيارتكم")
            (some "Getting Here") none
            (some "umb://document/e079f2d2051b43259dbebe3c82bef8cf") "/dec/getting-here/"]),
         ("image", .jarr [imageJ "a04adc53-cc3f-4924-b8b7-31174b403b46"
            "810c9d1c-cbaa-4e23-aa2c-e04d3c081a2f"]),
         ("video", .jstr ""), ("leftImage", .jstr "1"),
         ("locationTitle", .jstr ""), ("locationItems", .jstr "")]

/-- Arabic "Destination Dubai" list static block (its `items` field is a
nested empty block-list structure, unlike the English variant's `""`). -/
def arDestListJ (udi : String) : JValue :=
  .jobj [("contentTypeKey", .jstr "f4965fd3-b550-41c3-997e-1fd7059fe015"),
         ("udi", .jstr udi),
         ("title", .jstr "معالم دبي"),
         ("subtitle", .jstr "تعرفوا على أبرز الفعاليات في دبي"),
         ("description", .jstr ""), ("displayNotch", .jstr "0"),
         ("items", .jobj [("layout", .jobj [("Umbraco.BlockList", .jarr [])]),
                          ("contentData", .jarr []), ("settingsData", .jarr [])])]

/-- Arabic "Destination Dubai" card static block. -/
def arDestCardJ (udi : String) : JValue :=
  .jobj [("contentTypeKey", .jstr "c12716ad-f907-4621-b2e4-1b242d63974e"),
         ("udi", .jstr udi), ("logo", .jarr []),
         ("title", .jstr "معالم دبي"),
         ("subtitle", rteJ "<p>استمتعوا بكل لحظة من تجربة إقامتكم في دبي</p>"),
         ("description", rteJ "<p>توفر دبي لضيوفها أرقى التجارب والفعاليات، وتحتضن مجموعة من أبرز المعالم السياحية ووجهات تناول الطعام العالمية ومراكز التسوق والترفيه، جميعها على مقربة من مركز دبي للمعارض.</p>"),
         ("link", .jarr [linkJ "icon-article color-deep-purple" (some "استكشفوا المزيد")
            (some "Destination Dubai") none
            (some "umb://document/58a786fbf4ec4f9397dca699d4c74f01") "/dec/destination-dubai/"]),
         ("image", .jarr [imageJ "1d345bd4-ee7f-4a79-b3d0-1246a37e39dc"
            "aa57deab-5ea6-4a7e-a6ea-1afbc034cd2d"]),
         ("video", .jstr ""), ("leftImage", .jstr "0"),
         ("locationTitle", .jstr ""), ("locationItems", .jstr "")]

/-- A per-locale block list: `layout` (in declaration order), `contentData`,
empty `settingsData`. -/
def blockListJ (udis : List String) (content : List JValue) : JValue :=
  .jobj [("layout", .jobj [("Umbraco.BlockList", .jarr (udis.map layoutEntryJ))]),
         ("contentData", .jarr content), ("settingsData", .jarr [])]

/-- `buildPageBlocks` from `src/utils/event.utils.ts`: the five English guids
are generated first (calls `k`..`k+4`), then the six Arabic guids
(`k+5`..`k+10`), then the social-networks block list (calls from `k+11`). -/
def buildPageBlocks (crm : CrmEvent) (rnd : Nat → Nat → Nat) (k : Nat) :
    (JValue × JValue) × Nat :=
  let g := fun i => elementUdi (guidAt rnd (k + i))
  let soc := buildSocialNetworksBlockList crm.socialMedia rnd (k + 11)
  let socJ := socialToJ soc.1
  let en := blockListJ [g 0, g 1, g 2, g 3, g 4]
    [heroBlockJ (g 0), eventDescBlockJ (g 1) crm none socJ,
     enGettingHereJ (g 2), enDestListJ (g 3), enDestCardJ (g 4)]
  let ar := blockListJ [g 5, g 6, g 7, g 8, g 9, g 10]
    [heroBlockJ (g 5), eventDescBlockJ (g 6) crm (some "_blank") socJ,
     arGalleryJ (g 7), arGettingHereJ (g 8), arDestListJ (g 9), arDestCardJ (g 10)]
  ((en, ar), soc.2)

/-! ### Page blocks (update path) -/

/-- The per-locale body of `updatePageBlocks`: if `contentData` exists, is
truthy and its element at index 1 exists and is truthy, overwrite that
block's `description`, `organiserName`, `organiserWebsite` (set when
`websiteURL` is truthy, deleted otherwise) and `socialNetworks`; in every
other case the (cloned) locale structure is returned unchanged.  The model
covers truthy `contentData` only when it is an array and a truthy element 1
only when it is an object (in JS a truthy non-object there would fault on
property assignment; such inputs are outside the modelled domain). -/
def updateLocaleBlocks (b : JValue) (crm : CrmEvent) (socJ : JValue)
    (target : Option String) : JValue :=
  match b with
  | .jobj fs =>
    match getKey fs "contentData" with
    | some cd =>
      if truthy cd then
        match cd with
        | .jarr xs =>
          match xs.get? 1 with
          | some blk =>
            if truthy blk then
              match blk with
              | .jobj bfs =>
                let b1 := setKey bfs "description" (descriptionJ crm)
                let b2 := setKey b1 "organiserName" (.jstr crm.eventOrganiser)
                let b3 := match crm.websiteURL with
                  | some u =>
                    if u = "" then removeKey b2 "organiserWebsite"
                    else setKey b2 "organiserWebsite" (organiserWebsiteJ u target)
                  | none => removeKey b2 "organiserWebsite"
                let b4 := setKey b3 "socialNetworks" socJ
                .jobj (setKey fs "contentData" (.jarr (xs.set 1 (.jobj b4))))
              | _ => b
            else b
          | none => b
        | _ => b
      else b
    | none => b
  | _ => b

/-- `updatePageBlocks` from `src/utils/event.utils.ts`: rebuild the social
networks from CRM data (consuming guid calls from `k`), then update each
locale's event-description block.  The JSON round-trip deep clone is the
identity on JSON values, so it does not appear in this value-level model
(aliasing is treated separately in the heap model below). -/
def updatePageBlocks (pb : JValue × JValue) (crm : CrmEvent)
    (rnd : Nat → Nat → Nat) (k : Nat) : (JValue × JValue) × Nat :=
  let soc := buildSocialNetworksBlockList crm.socialMedia rnd k
  let socJ := socialToJ soc.1
  ((updateLocaleBlocks pb.1 crm socJ none,
    updateLocaleBlocks pb.2 crm socJ (some "_blank")), soc.2)

/-! ### The create-path mapper -/

/-- A localized string field (same CRM text in both locales). -/
structure LocalizedStr where
  enUS : String
  ar : String
deriving DecidableEq

/-- Both locales set to the same CRM-sourced text. -/
def localized (s : String) : LocalizedStr :=
  ⟨s, s⟩

/-- The `organiserWebsite` link of the top-level payload (its `name` is the
website URL, unlike the page-block variant). -/
def createLinkItem (url : String) : LinkItem :=
  ⟨"icon-link", some url, none, true, none, none, false, none, url⟩

/-- The freshness marker re-wrapped in quote characters on write. -/
def wrapQuotes (s : String) : String :=
  "\"" ++ s ++ "\""

/-- The payload of `mapCrmEventToUmbraco`.  `$invariant` wrappers are elided;
field names and presence/absence (`Option`) mirror the source object.  A
`parentId` of `none` models the key being omitted from the payload. -/
structure CreateEventPayload where
  name : LocalizedStr
  contentTypeAlias : String
  title : LocalizedStr
  description : LocalizedStr
  metadataTitle : LocalizedStr
  metadataDescription : LocalizedStr
  metadataKeywords : LocalizedStr
  date : String
  category : List String
  endDate : String
  organiserName : String
  organiserWebsite : Option (List LinkItem)
  organiserSocialNetworks : SocialBlockList
  eventId : String
  lastUpdatedDate : String
  location : Option String
  eventVenue : List String
  newEventVenue : List String
  audience : List String
  industry : List String
  pageBlocks : JValue × JValue
  parentId : Option String

/-- `mapCrmEventToUmbraco` from `src/utils/event.utils.ts`.  Guid consumption
order follows the object literal: `organiserSocialNetworks` first (calls from
0), then `buildPageBlocks`.  `parentId` is spread in only when truthy (JS:
`undefined` and `""` are falsy). -/
def mapCrmEventToUmbraco (crm : CrmEvent) (rnd : Nat → Nat → Nat)
    (parentId : Option String) : CreateEventPayload :=
  let soc := buildSocialNetworksBlockList crm.socialMedia rnd 0
  let pb := buildPageBlocks crm rnd soc.2
  { name := localized crm.title
    contentTypeAlias := "decEvent"
    title := localized crm.title
    description := localized crm.pageContent
    metadataTitle := localized crm.title
    metadataDescription := localized crm.pageContent
    metadataKeywords := ⟨"", ""⟩
    date := crm.startDate
    category := if crm.eventType = "" then [] else [crm.eventType]
    endDate := crm.endDate
    organiserName := crm.eventOrganiser
    organiserWebsite :=
      match crm.websiteURL with
      | some u => if u = "" then none else some [createLinkItem u]
      | none => none
    organiserSocialNetworks := soc.1
    eventId := toString crm.eventId
    lastUpdatedDate := wrapQuotes crm.lastUpdatedDate
    location :=
      match crm.location with
      | some s => if s = "" then none else some s
      | none => none
    eventVenue := crm.eventVenues
    newEventVenue := []
    audience :=
      match crm.eventAudiences with
      | some s => if s = "" then [] else [s]
      | none => []
    industry := crm.eventSectors
    pageBlocks := pb.1
    parentId :=
      match parentId with
      | some p => if p = "" then none else some p
      | none => none }

/-! ### Concrete fixtures for counterexamples and witnesses -/

/-- A social-media record with every channel blank. -/
def smEmpty : SocialMedia :=
  ⟨"", "", "", "", ""⟩

/-- A social-media record with only facebook and tiktok populated. -/
def smFbTt : SocialMedia :=
  ⟨"https://fb.example/e", "", "", "", "https://tt.example/e"⟩

/-- A well-formed concrete CRM event. -/
def crmBase : CrmEvent where
  title := "Expo"
  featuredImage := ""
  pageContent := "Body"
  imagesCarousel := ""
  startDate := "2024-01-01T09:00:00"
  endDate := "2024-01-02T18:00:00"
  location := some "Dubai"
  eventAudiences := none
  eventSectors := []
  eventId := 1
  eventType := "Conference"
  eventVenues := ["A", "B"]
  eventOrganiser := "Org"
  websiteURL := none
  dWTCEvent := false
  eventLogo := none
  socialMedia := smEmpty
  lastUpdatedDate := "2024-01-01"
  WebsiteStatus := "Online"

/-- A constant random source. -/
def rnd0 : Nat → Nat → Nat :=
  fun _ _ => 0

/-- A CRM event whose freshness marker wraps a line break in quotes. -/
def crmNl : CrmEvent :=
  { crmBase with lastUpdatedDate := "\"a\nb\"" }

/-- The CMS record matching `crmNl` with the unquoted marker. -/
def umbNl : UmbracoEvent :=
  ⟨"doc0", "1", "a\nb", "Expo"⟩

/-- A CRM event whose freshness marker is already quote-wrapped. -/
def crmQuoted : CrmEvent :=
  { crmBase with lastUpdatedDate := "\"a\"" }

/-- The CMS record storing `crmQuoted`'s marker exactly as the mapper writes
it (re-wrapped in quotes, hence double-wrapped). -/
def umbQuoted : UmbracoEvent :=
  ⟨"doc1", "1", "\"\"a\"\"", "Expo"⟩

/-- The CMS record storing `crmBase`'s marker exactly as the mapper writes it. -/
def umbBase : UmbracoEvent :=
  ⟨"doc2", "1", "\"2024-01-01\"", "Expo"⟩

/-! ### C1, C3: the reconciler -/

/-- C1 counterexample: the claim reads "strip a single layer of wrapping
quote characters"; the implementation's regex does not strip when the quoted
content contains a line terminator (JS `.`), so a CRM marker `"a\nb"` (quoted)
against a CMS marker `a\nb` is spec-equal after stripping, yet `compareEvents`
appends the pair to `toUpdate` instead of dropping it. -/
theorem c1_counterexample :
    specStripQuoteLayer crmNl.lastUpdatedDate
        = specStripQuoteLayer umbNl.lastUpdatedDate
  ∧ umbNl.eventId = toString crmNl.eventId
  ∧ (compareEvents [crmNl] [umbNl]).toUpdate = [(umbNl, crmNl)] := by
  decide

/-- C1 (amended): `compareEvents` classifies each CRM event in input order —
`toCreate` collects exactly those whose stringified id has no entry in the
CMS lookup (built one entry per distinct id, last one winning), `toUpdate`
collects exactly the matched pairs whose `lastUpdatedDate`s differ after
normalization, where normalization strips one layer of wrapping quotes only
when the wrapped content contains no line terminator (the regex semantics);
quote-normalized-equal events appear in neither output. -/
theorem c1_compareEvents_classification (crm : List CrmEvent)
    (umb : List UmbracoEvent) :
    (compareEvents crm umb).toCreate
        = crm.filter (fun c => (umbracoLookup umb (toString c.eventId)).isNone)
  ∧ (compareEvents crm umb).toUpdate
        = crm.filterMap (fun c =>
            match umbracoLookup umb (toString c.eventId) with
            | some u =>
              if normalizeDateString c.lastUpdatedDate
                  = normalizeDateString u.lastUpdatedDate
              then none
              else some (u, c)
            | none => none)
  ∧ (∀ key, umbracoLookup umb key
        = umb.reverse.find? (fun u => u.eventId == key)) :=
  ⟨compare_toCreate_eq crm umb, compare_toUpdate_eq crm umb,
   fun key => umbracoLookup_lastWins umb key⟩

theorem compare_update_snd (crm : List CrmEvent) (umb : List UmbracoEvent) :
    (compareEvents crm umb).toUpdate.map Prod.snd
      = crm.filter (fun c => classify umb c == SyncOutcome.routedToUpdate) := by
  induction crm with
  | nil => rfl
  | cons c rest ih =>
    simp only [compareEvents, List.filter_cons]
    cases h : umbracoLookup umb (toString c.eventId) with
    | none => simp [classify, h, ih]
    | some u =>
      by_cases hd : normalizeDateString c.lastUpdatedDate
          = normalizeDateString u.lastUpdatedDate <;>
        simp [classify, h, hd, ih]

theorem compare_create_classify (crm : List CrmEvent) (umb : List UmbracoEvent) :
    (compareEvents crm umb).toCreate
      = crm.filter (fun c => classify umb c == SyncOutcome.routedToCreate) := by
  induction crm with
  | nil => rfl
  | cons c rest ih =>
    simp only [compareEvents, List.filter_cons]
    cases h : umbracoLookup umb (toString c.eventId) with
    | none => simp [classify, h, ih]
    | some u =>
      by_cases hd : normalizeDateString c.lastUpdatedDate
          = normalizeDateString u.lastUpdatedDate <;>
        simp [classify, h, hd, ih]

theorem compare_partition_length (crm : List CrmEvent) (umb : List UmbracoEvent) :
    (compareEvents crm umb).toUpdate.length + (compareEvents crm umb).toCreate.length
      + (crm.filter (fun c => classify umb c == SyncOutcome.dropped)).length
      = crm.length := by
  induction crm with
  | nil => rfl
  | cons c rest ih =>
    simp only [compareEvents, List.filter_cons]
    cases h : umbracoLookup umb (toString c.eventId) with
    | none =>
      have hc : (classify umb c == SyncOutcome.dropped) = false := by
        simp [classify, h]
      simp [h, hc]
      omega
    | some u =>
      by_cases hd : normalizeDateString c.lastUpdatedDate
          = normalizeDateString u.lastUpdatedDate
      · have hc : (classify umb c == SyncOutcome.dropped) = true := by
          simp [classify, h, hd]
        simp [h, hd, hc]
        omega
      · have hc : (classify umb c == SyncOutcome.dropped) = false := by
          simp [classify, h, hd]
        simp [h, hd, hc]
        omega

/-- C3: partition totality — `classify` assigns every CRM event exactly one
of the three outcomes; `toUpdate` (by its CRM component), `toCreate` and the
dropped events are precisely the input filtered by that classification, and
the three output lengths add up to the input length, so each input occurrence
lands in exactly one bucket. -/
theorem c3_partition (crm : List CrmEvent) (umb : List UmbracoEvent) :
    (∀ c : CrmEvent, classify umb c = SyncOutcome.dropped
        ∨ classify umb c = SyncOutcome.routedToUpdate
        ∨ classify umb c = SyncOutcome.routedToCreate)
  ∧ (compareEvents crm umb).toUpdate.map Prod.snd
        = crm.filter (fun c => classify umb c == SyncOutcome.routedToUpdate)
  ∧ (compareEvents crm umb).toCreate
        = crm.filter (fun c => classify umb c == SyncOutcome.routedToCreate)
  ∧ droppedEvents crm umb
        = crm.filter (fun c => classify umb c == SyncOutcome.dropped)
  ∧ (compareEvents crm umb).toUpdate.length + (compareEvents crm umb).toCreate.length
        + (droppedEvents crm umb).length = crm.length := by
  refine ⟨?_, compare_update_snd crm umb, compare_create_classify crm umb, rfl,
    compare_partition_length crm umb⟩
  intro c
  unfold classify
  cases umbracoLookup umb (toString c.eventId) with
  | none => simp
  | some u =>
    by_cases hd : normalizeDateString c.lastUpdatedDate
        = normalizeDateString u.lastUpdatedDate <;> simp [hd]

/-! ### C2: cross-run idempotence -/

theorem normalize_wrapQuotes (s : String)
    (h : s.data.all (fun c => !isLineTerm c) = true) :
    normalizeDateString (wrapQuotes s) = s := by
  obtain ⟨d⟩ := s
  simp only [wrapQuotes, normalizeDateString]
  have hdata : ("\"" ++ String.mk d ++ "\"").data = '"' :: (d ++ ['"']) := by
    simp [String.data_append]
  rw [hdata]
  have hwrap : quoteWrapped ('"' :: (d ++ ['"'])) = true := by
    have hlast : ('"' :: (d ++ ['"'])).getLast? = some '"' := by
      rw [show ('"' :: (d ++ ['"'])) = ('"' :: d) ++ ['"'] by simp]
      exact List.getLast?_concat _
    simp only [quoteWrapped, List.length_cons, List.length_append,
      List.head?_cons, hlast, List.drop_succ_cons, List.drop_zero]
    have hdl : (d ++ ['"']).dropLast = d := List.dropLast_concat
    rw [hdl]
    simp only [h]
    simp
  rw [normalizeChars, if_pos hwrap]
  simp only [List.drop_succ_cons, List.drop_zero]
  rw [List.dropLast_concat]

/-- C2 counterexample: a CRM marker that is itself quote-wrapped.  The mapper
writes it re-wrapped (double-quoted); one-layer stripping then compares
`a` against `"a"`, so re-running reconciliation routes the pair to
`toUpdate` instead of treating it as synchronized. -/
theorem c2_counterexample :
    umbQuoted.eventId = toString crmQuoted.eventId
  ∧ umbQuoted.lastUpdatedDate
      = (mapCrmEventToUmbraco crmQuoted rnd0 none).lastUpdatedDate
  ∧ compareEvents [crmQuoted] [umbQuoted] ≠ ⟨[], []⟩ := by
  refine ⟨rfl, rfl, ?_⟩
  decide

/-- C2 (amended): re-running reconciliation against a CMS event storing the
mapper-written marker is a no-op for every CRM `lastUpdatedDate` that is
stable under normalization (not itself of the quote-wrapped form) and
contains no line terminator; for already-quote-wrapped markers the double
wrapping breaks idempotence (see the counterexample). -/
theorem c2_idempotent_amended (e : CrmEvent) (u : UmbracoEvent)
    (rnd : Nat → Nat → Nat)
    (hid : u.eventId = toString e.eventId)
    (hdate : u.lastUpdatedDate = (mapCrmEventToUmbraco e rnd none).lastUpdatedDate)
    (hstable : normalizeDateString e.lastUpdatedDate = e.lastUpdatedDate)
    (hnl : e.lastUpdatedDate.data.all (fun c => !isLineTerm c) = true) :
    compareEvents [e] [u] = ⟨[], []⟩ := by
  have hu : u.lastUpdatedDate = wrapQuotes e.lastUpdatedDate := hdate
  have hn : normalizeDateString u.lastUpdatedDate = e.lastUpdatedDate := by
    rw [hu, normalize_wrapQuotes _ hnl]
  have hl : umbracoLookup [u] (toString e.eventId) = some u := by
    simp [umbracoLookup, hid]
  simp only [compareEvents, hl]
  rw [hn, hstable]
  simp

/-- C2 witness: a plain (unquoted, line-terminator-free) marker round-trips
to a no-op. -/
theorem c2_witness :
    umbBase.eventId = toString crmBase.eventId
  ∧ umbBase.lastUpdatedDate
      = (mapCrmEventToUmbraco crmBase rnd0 none).lastUpdatedDate
  ∧ normalizeDateString crmBase.lastUpdatedDate = crmBase.lastUpdatedDate
  ∧ crmBase.lastUpdatedDate.data.all (fun c => !isLineTerm c) = true
  ∧ compareEvents [crmBase] [umbBase] = ⟨[], []⟩ :=
  ⟨rfl, rfl, by decide, by decide,
   c2_idempotent_amended crmBase umbBase rnd0 rfl rfl (by decide) (by decide)⟩

/-! ### C4: venue filter -/

/-- C4: the venue filter keeps, in input order, exactly the events whose
venue list contains the venue by exact membership and whose status is
`"online"` case-insensitively; the cited examples hold and empty input or no
matches give an empty list. -/
theorem c4_filterEventsByVenue_spec :
    (∀ (evs : List CrmEvent) (v : String),
        filterEventsByVenue evs v
          = evs.filter (fun e =>
              decide (v ∈ e.eventVenues ∧ lowerStr e.WebsiteStatus = "online")))
  ∧ (∀ (evs : List CrmEvent) (v : String), (filterEventsByVenue evs v).Sublist evs)
  ∧ filterEventsByVenue [crmBase] "B" = [crmBase]
  ∧ filterEventsByVenue [{ crmBase with WebsiteStatus := "offline" }] "B" = []
  ∧ (∀ v : String, filterEventsByVenue [] v = []) := by
  refine ⟨?_, ?_, by decide, by decide, fun v => rfl⟩
  · intro evs v
    unfold filterEventsByVenue
    apply List.filter_congr
    intro e _
    simp [List.contains_iff_exists_mem_beq, decide_eq_true_eq, Bool.and_eq_true,
      beq_iff_eq]
    tauto
  · intro evs v
    exact List.filter_sublist evs

/-! ### C9: create payload parentId shape -/

/-- C9 counterexample: a supplied empty-string `parentId` is falsy in JS, so
the payload omits the field even though a parentId was supplied. -/
theorem c9_counterexample :
    (mapCrmEventToUmbraco crmBase rnd0 (some "")).parentId = none := rfl

/-- C9 (amended): with no `parentId` (or an empty one, which is falsy) the
payload omits the field; with a supplied non-empty `parentId` the payload is
identical except that it includes that `parentId`. -/
theorem c9_parentId_shape (crm : CrmEvent) (rnd : Nat → Nat → Nat) (p : String)
    (hp : p ≠ "") :
    (mapCrmEventToUmbraco crm rnd none).parentId = none
  ∧ (mapCrmEventToUmbraco crm rnd (some "")).parentId = none
  ∧ mapCrmEventToUmbraco crm rnd (some p)
      = { mapCrmEventToUmbraco crm rnd none with parentId := some p } := by
  refine ⟨rfl, rfl, ?_⟩
  simp [mapCrmEventToUmbraco, hp]

/-- C9 witness: the supplied parentId `"123"` is included verbatim. -/
theorem c9_witness :
    ("123" : String) ≠ ""
  ∧ ((mapCrmEventToUmbraco crmBase rnd0 none).parentId = none
      ∧ (mapCrmEventToUmbraco crmBase rnd0 (some "")).parentId = none
      ∧ mapCrmEventToUmbraco crmBase rnd0 (some "123")
          = { mapCrmEventToUmbraco crmBase rnd0 none with parentId := some "123" }) :=
  ⟨by decide, c9_parentId_shape crmBase rnd0 "123" (by decide)⟩

/-! ### C6: social block cardinality and order -/

/-- C6: `buildSocialNetworksBlockList` emits exactly one layout entry and one
content entry, paired positionally by identifier, per channel whose URL is
present and non-blank after trimming, iterating the fixed order facebook,
linkedIn, instagram, youtube, tiktok; blank or absent channels are omitted,
so the output length is at most 5; with only facebook and tiktok populated it
returns exactly 2 layout entries and 2 content entries. -/
theorem c6_social_cardinality :
    (∀ (sm : SocialMedia) (rnd : Nat → Nat → Nat) (k : Nat),
        (buildSocialNetworksBlockList sm rnd k).1.contentData.map SocialContent.udi
            = (buildSocialNetworksBlockList sm rnd k).1.layout
      ∧ (buildSocialNetworksBlockList sm rnd k).1.contentData.map
            SocialContent.socialNetwork
          = ((socialChannels sm).filter (fun c => urlPresent c.2)).map
              (fun c => [c.1])
      ∧ (buildSocialNetworksBlockList sm rnd k).1.layout.length
          = ((socialChannels sm).filter (fun c => urlPresent c.2)).length
      ∧ (buildSocialNetworksBlockList sm rnd k).1.layout.length ≤ 5)
  ∧ (buildSocialNetworksBlockList smFbTt rnd0 0).1.layout.length = 2
  ∧ (buildSocialNetworksBlockList smFbTt rnd0 0).1.contentData.length = 2
  ∧ (buildSocialNetworksBlockList smFbTt rnd0 0).1.contentData.map
        SocialContent.socialNetwork = [["Facebook"], ["TikTok"]] := by
  refine ⟨fun sm rnd k => ⟨socialAux_udis _ _ _, socialAux_names _ _ _,
    socialAux_length _ _ _, ?_⟩, by decide, by decide, by decide⟩
  unfold buildSocialNetworksBlockList
  rw [socialAux_length]
  calc ((socialChannels sm).filter (fun c => urlPresent c.2)).length
      ≤ (socialChannels sm).length := List.length_filter_le _ _
    _ = 5 := rfl

/-! ### C8: identifier shape -/

/-- C8: for every outcome of the random source, the generated identifier is a
36-character string of lowercase hex digits and hyphens with hyphens at
positions 8, 13, 18 and 23; ignoring hyphens, its 13th hex digit is `4` and
its 17th is one of `8`, `9`, `a`, `b`; and the rendered URI form is exactly
`umb://element/` followed by the hyphen-stripped guid and contains no hyphen. -/
theorem c8_guid_shape (r : Nat → Nat) :
    (generateGuid r).length = 36
  ∧ (∀ c ∈ generateGuid r, c ∈ hexChars ∨ c = '-')
  ∧ (generateGuid r).get? 8 = some '-'
  ∧ (generateGuid r).get? 13 = some '-'
  ∧ (generateGuid r).get? 18 = some '-'
  ∧ (generateGuid r).get? 23 = some '-'
  ∧ (stripHyphens (generateGuid r)).length = 32
  ∧ (stripHyphens (generateGuid r)).get? 12 = some '4'
  ∧ (∃ c ∈ (['8', '9', 'a', 'b'] : List Char),
        (stripHyphens (generateGuid r)).get? 16 = some c)
  ∧ (∀ c ∈ (elementUdi (generateGuid r)).data, c ≠ '-')
  ∧ elementUdi (generateGuid r)
      = "umb://element/" ++ String.mk (stripHyphens (generateGuid r)) := by
  refine ⟨by rw [generateGuid_explicit]; rfl, ?_,
    by rw [generateGuid_explicit]; rfl, by rw [generateGuid_explicit]; rfl,
    by rw [generateGuid_explicit]; rfl, by rw [generateGuid_explicit]; rfl,
    by rw [stripHyphens_guid]; rfl, by rw [stripHyphens_guid]; rfl,
    ⟨hexDigit ((r 15 % 16) &&& 3 ||| 8), variantDigit_mem (r 15),
      by rw [stripHyphens_guid]; rfl⟩, ?_, rfl⟩
  · intro c hc
    rw [generateGuid_explicit] at hc
    simp only [List.mem_cons, List.not_mem_nil, or_false] at hc
    rcases hc with rfl|rfl|rfl|rfl|rfl|rfl|rfl|rfl|rfl|rfl|rfl|rfl|rfl|rfl|rfl|rfl|rfl|rfl|rfl|rfl|rfl|rfl|rfl|rfl|rfl|rfl|rfl|rfl|rfl|rfl|rfl|rfl|rfl|rfl|rfl|rfl <;>
      first
        | exact Or.inl (hexDigit_mem _)
        | exact Or.inr rfl
        | exact Or.inl (by decide)
  · intro c hc
    have hdata : (elementUdi (generateGuid r)).data
        = "umb://element/".data ++ stripHyphens (generateGuid r) := by
      simp [elementUdi, String.data_append]
    rw [hdata] at hc
    rcases List.mem_append.mp hc with hpre | hfil
    · have hall : ∀ x ∈ "umb://element/".data, x ≠ '-' := by decide
      exact hall c hpre
    · have := List.of_mem_filter hfil
      simpa using this

/-! ### C5: update preservation (frame property) -/

/-- Property read on a locale structure. -/
def localeKey (b : JValue) (k : String) : Option JValue :=
  getKey (objFields b) k

/-- The `contentData` array of a locale structure (empty if absent or not an
array). -/
def contentList (b : JValue) : List JValue :=
  match localeKey b "contentData" with
  | some (.jarr xs) => xs
  | _ => []

/-- Property read through an optional block. -/
def optKey (o : Option JValue) (k : String) : Option JValue :=
  o.bind (fun v => getKey (objFields v) k)

/-- The guard `blocks.contentData && blocks.contentData[1]` of
`updatePageBlocks`: the designated event-description position exists. -/
def eventDescPresent (b : JValue) : Bool :=
  match b with
  | .jobj fs =>
    match getKey fs "contentData" with
    | some cd =>
      if truthy cd then
        match cd with
        | .jarr xs =>
          match xs.get? 1 with
          | some blk => truthy blk
          | none => false
        | _ => false
      else false
    | none => false
  | _ => false

/-- Well-formedness of an existing locale structure for the update path: it
is an object, a truthy `contentData` is an array, and a truthy element at
index 1 is an object.  (In JS a `null` locale would fault on property read
and a truthy primitive block would fault on property assignment.) -/
def localeWF (b : JValue) : Bool :=
  match b with
  | .jobj fs =>
    match getKey fs "contentData" with
    | some cd =>
      if truthy cd then
        match cd with
        | .jarr xs =>
          match xs.get? 1 with
          | some blk =>
            if truthy blk then
              match blk with
              | .jobj _ => true
              | _ => false
            else true
          | none => true
        | _ => false
      else true
    | none => true
  | _ => false

/-- Modelled from the spec: the update-preservation contract for one locale —
if the event-description position is missing the locale is unchanged;
otherwise every locale field except `contentData` is unchanged, every
`contentData` entry except index 1 is byte-identical, the block at index 1
keeps its identifier, its type key and every field other than the four
CRM-derived ones, and those four are set from current CRM data. -/
def updateFrameSpec (crm : CrmEvent) (socJ : JValue) (target : Option String)
    (old new : JValue) : Prop :=
  (eventDescPresent old = false → new = old)
  ∧ (eventDescPresent old = true →
      (∀ k, k ≠ "contentData" → localeKey new k = localeKey old k)
    ∧ (contentList new).length = (contentList old).length
    ∧ (∀ i, i ≠ 1 → (contentList new)[i]? = (contentList old)[i]?)
    ∧ optKey (contentList new)[1]? "udi"
        = optKey (contentList old)[1]? "udi"
    ∧ optKey (contentList new)[1]? "contentTypeKey"
        = optKey (contentList old)[1]? "contentTypeKey"
    ∧ (∀ k, k ∉ (["description", "organiserName", "organiserWebsite",
          "socialNetworks"] : List String) →
        optKey (contentList new)[1]? k = optKey (contentList old)[1]? k)
    ∧ optKey (contentList new)[1]? "description" = some (descriptionJ crm)
    ∧ optKey (contentList new)[1]? "organiserName"
        = some (.jstr crm.eventOrganiser)
    ∧ optKey (contentList new)[1]? "organiserWebsite"
        = (match crm.websiteURL with
           | some u => if u = "" then none else some (organiserWebsiteJ u target)
           | none => none)
    ∧ optKey (contentList new)[1]? "socialNetworks" = some socJ)

theorem updateLocale_frame (b : JValue) (crm : CrmEvent) (socJ : JValue)
    (target : Option String) (hwf : localeWF b = true) :
    updateFrameSpec crm socJ target b (updateLocaleBlocks b crm socJ target) := by
  cases b with
  | null => exact absurd hwf (by simp [localeWF])
  | jbool x => exact absurd hwf (by simp [localeWF])
  | jstr x => exact absurd hwf (by simp [localeWF])
  | jarr x => exact absurd hwf (by simp [localeWF])
  | jobj fs =>
    cases hcd : getKey fs "contentData" with
    | none =>
      constructor
      · intro _
        simp [updateLocaleBlocks, hcd]
      · intro hp
        simp [eventDescPresent, hcd] at hp
    | some cd =>
      by_cases ht : truthy cd = true
      · cases cd with
        | null => simp [truthy] at ht
        | jbool x => simp [localeWF, hcd, ht] at hwf
        | jstr x => simp [localeWF, hcd, ht] at hwf
        | jobj x => simp [localeWF, hcd, ht] at hwf
        | jarr xs =>
          cases hx : xs[1]? with
          | none =>
            constructor
            · intro _
              simp [updateLocaleBlocks, hcd, ht, hx]
            · intro hp
              simp [eventDescPresent, hcd, ht, hx] at hp
          | some blk =>
            by_cases hb : truthy blk = true
            · cases blk with
              | null => simp [truthy] at hb
              | jbool x => simp [localeWF, hcd, ht, hx, hb] at hwf
              | jstr x => simp [localeWF, hcd, ht, hx, hb] at hwf
              | jarr x => simp [localeWF, hcd, ht, hx, hb] at hwf
              | jobj bfs =>
                have h1lt : 1 < xs.length := by
                  by_contra hlen
                  rw [List.getElem?_eq_none (Nat.le_of_not_lt hlen)] at hx
                  cases hx
                have hnew : updateLocaleBlocks (.jobj fs) crm socJ target
                    = .jobj (setKey fs "contentData"
                        (.jarr (xs.set 1 (.jobj (setKey
                          (match crm.websiteURL with
                           | some u =>
                             if u = "" then
                               removeKey (setKey (setKey bfs "description" (descriptionJ crm))
                                 "organiserName" (.jstr crm.eventOrganiser))
                                 "organiserWebsite"
                             else
                               setKey (setKey (setKey bfs "description" (descriptionJ crm))
                                 "organiserName" (.jstr crm.eventOrganiser))
                                 "organiserWebsite" (organiserWebsiteJ u target)
                           | none =>
                             removeKey (setKey (setKey bfs "description" (descriptionJ crm))
                               "organiserName" (.jstr crm.eventOrganiser))
                               "organiserWebsite")
                          "socialNetworks" socJ))))) := by
                  simp [updateLocaleBlocks, hcd, ht, hx, hb]
                have hp : eventDescPresent (.jobj fs) = true := by
                  simp [eventDescPresent, hcd, ht, hx, hb]
                have hcl : contentList (.jobj fs) = xs := by
                  simp [contentList, localeKey, objFields, hcd]
                set b4 := setKey
                    (match crm.websiteURL with
                     | some u =>
                       if u = "" then
                         removeKey (setKey (setKey bfs "description" (descriptionJ crm))
                           "organiserName" (.jstr crm.eventOrganiser))
                           "organiserWebsite"
                       else
                         setKey (setKey (setKey bfs "description" (descriptionJ crm))
                           "organiserName" (.jstr crm.eventOrganiser))
                           "organiserWebsite" (organiserWebsiteJ u target)
                     | none =>
                       removeKey (setKey (setKey bfs "description" (descriptionJ crm))
                         "organiserName" (.jstr crm.eventOrganiser))
                         "organiserWebsite")
                    "socialNetworks" socJ with hb4
                have hclnew : contentList (updateLocaleBlocks (.jobj fs) crm socJ target)
                    = xs.set 1 (.jobj b4) := by
                  rw [hnew]
                  simp [contentList, localeKey, objFields, getKey_setKey_self]
                have hget1 : (xs.set 1 (.jobj b4))[1]? = some (.jobj b4) :=
                  List.getElem?_set_eq_of_lt _ h1lt
                have hb4frame : ∀ k, k ≠ "description" → k ≠ "organiserName" →
                    k ≠ "organiserWebsite" → k ≠ "socialNetworks" →
                    getKey b4 k = getKey bfs k := by
                  intro k hk1 hk2 hk3 hk4
                  rw [hb4]
                  rw [getKey_setKey_ne _ _ _ _ hk4]
                  cases hw : crm.websiteURL with
                  | none =>
                    simp only []
                    rw [getKey_removeKey_ne _ _ _ hk3,
                      getKey_setKey_ne _ _ _ _ hk2, getKey_setKey_ne _ _ _ _ hk1]
                  | some u =>
                    simp only []
                    by_cases hu : u = ""
                    · rw [if_pos hu, getKey_removeKey_ne _ _ _ hk3,
                        getKey_setKey_ne _ _ _ _ hk2, getKey_setKey_ne _ _ _ _ hk1]
                    · rw [if_neg hu, getKey_setKey_ne _ _ _ _ hk3,
                        getKey_setKey_ne _ _ _ _ hk2, getKey_setKey_ne _ _ _ _ hk1]
                refine ⟨fun hfalse => absurd (hp.symm.trans hfalse) (by decide),
                  fun _ => ?_⟩
                refine ⟨?_, ?_, ?_, ?_, ?_, ?_, ?_, ?_, ?_, ?_⟩
                · intro k hk
                  rw [hnew]
                  simp only [localeKey, objFields]
                  exact getKey_setKey_ne _ _ _ _ hk
                · rw [hclnew, hcl, List.length_set]
                · intro i hi
                  rw [hclnew, hcl]
                  exact List.getElem?_set_ne (fun hh => hi hh.symm)
                · rw [hclnew, hcl, hget1, hx]
                  simp only [optKey, Option.some_bind, objFields]
                  exact hb4frame _ (by decide) (by decide) (by decide) (by decide)
                · rw [hclnew, hcl, hget1, hx]
                  simp only [optKey, Option.some_bind, objFields]
                  exact hb4frame _ (by decide) (by decide) (by decide) (by decide)
                · intro k hk
                  simp only [List.mem_cons, List.not_mem_nil, or_false,
                    not_or] at hk
                  obtain ⟨hk1, hk2, hk3, hk4⟩ := hk
                  rw [hclnew, hcl, hget1, hx]
                  simp only [optKey, Option.some_bind, objFields]
                  exact hb4frame _ hk1 hk2 hk3 hk4
                · rw [hclnew, hget1]
                  simp only [optKey, Option.some_bind, objFields]
                  rw [hb4, getKey_setKey_ne _ _ _ _ (by decide)]
                  cases hw : crm.websiteURL with
                  | none =>
                    simp only []
                    rw [getKey_removeKey_ne _ _ _ (by decide),
                      getKey_setKey_ne _ _ _ _ (by decide), getKey_setKey_self]
                  | some u =>
                    simp only []
                    by_cases hu : u = ""
                    · rw [if_pos hu, getKey_removeKey_ne _ _ _ (by decide),
                        getKey_setKey_ne _ _ _ _ (by decide), getKey_setKey_self]
                    · rw [if_neg hu, getKey_setKey_ne _ _ _ _ (by decide),
                        getKey_setKey_ne _ _ _ _ (by decide), getKey_setKey_self]
                · rw [hclnew, hget1]
                  simp only [optKey, Option.some_bind, objFields]
                  rw [hb4, getKey_setKey_ne _ _ _ _ (by decide)]
                  cases hw : crm.websiteURL with
                  | none =>
                    simp only []
                    rw [getKey_removeKey_ne _ _ _ (by decide), getKey_setKey_self]
                  | some u =>
                    simp only []
                    by_cases hu : u = ""
                    · rw [if_pos hu, getKey_removeKey_ne _ _ _ (by decide),
                        getKey_setKey_self]
                    · rw [if_neg hu, getKey_setKey_ne _ _ _ _ (by decide),
                        getKey_setKey_self]
                · rw [hclnew, hget1]
                  simp only [optKey, Option.some_bind, objFields]
                  rw [hb4, getKey_setKey_ne _ _ _ _ (by decide)]
                  cases hw : crm.websiteURL with
                  | none =>
                    simp only []
                    rw [getKey_removeKey_self]
                  | some u =>
                    simp only []
                    by_cases hu : u = ""
                    · rw [if_pos hu, if_pos hu, getKey_removeKey_self]
                    · rw [if_neg hu, if_neg hu, getKey_setKey_self]
                · rw [hclnew, hget1]
                  simp only [optKey, Option.some_bind, objFields]
                  rw [hb4, getKey_setKey_self]
            · constructor
              · intro _
                simp [updateLocaleBlocks, hcd, ht, hx, hb]
              · intro hp
                simp [eventDescPresent, hcd, ht, hx, hb] at hp
      · constructor
        · intro _
          simp [updateLocaleBlocks, hcd, ht]
        · intro hp
          simp [eventDescPresent, hcd, ht] at hp

/-- C5: the update merge preserves everything except the four CRM-derived
fields of the event-description block (index 1 of `contentData`) in each
locale: every other block, the layout and the block's own identifier are
byte-identical to the input, and a locale whose designated position is
missing is returned unchanged rather than failing. -/
theorem c5_update_preservation (crm : CrmEvent) (pb : JValue × JValue)
    (rnd : Nat → Nat → Nat) (k : Nat)
    (h1 : localeWF pb.1 = true) (h2 : localeWF pb.2 = true) :
    updateFrameSpec crm
        (socialToJ (buildSocialNetworksBlockList crm.socialMedia rnd k).1) none
        pb.1 (updatePageBlocks pb crm rnd k).1.1
  ∧ updateFrameSpec crm
        (socialToJ (buildSocialNetworksBlockList crm.socialMedia rnd k).1)
        (some "_blank") pb.2 (updatePageBlocks pb crm rnd k).1.2 :=
  ⟨updateLocale_frame pb.1 crm _ none h1,
   updateLocale_frame pb.2 crm _ (some "_blank") h2⟩

/-- A concrete existing English locale structure (hero + event description). -/
def pbEnEx : JValue :=
  .jobj [("layout", .jobj [("Umbraco.BlockList",
            .jarr [layoutEntryJ "umb://element/h1", layoutEntryJ "umb://element/d1"])]),
         ("contentData", .jarr [heroBlockJ "umb://element/h1",
            .jobj [("contentTypeKey", .jstr "163c1761-234c-41f4-92e5-9d3d26186b79"),
                   ("udi", .jstr "umb://element/d1"),
                   ("organiserName", .jstr "Old")]]),
         ("settingsData", .jarr [])]

/-- A concrete existing Arabic locale structure. -/
def pbArEx : JValue :=
  .jobj [("layout", .jobj [("Umbraco.BlockList",
            .jarr [layoutEntryJ "umb://element/h2", layoutEntryJ "umb://element/d2"])]),
         ("contentData", .jarr [heroBlockJ "umb://element/h2",
            .jobj [("contentTypeKey", .jstr "163c1761-234c-41f4-92e5-9d3d26186b79"),
                   ("udi", .jstr "umb://element/d2"),
                   ("organiserName", .jstr "Old")]]),
         ("settingsData", .jarr [])]

/-- A concrete existing per-locale page-block pair. -/
def pbEx : JValue × JValue :=
  (pbEnEx, pbArEx)

/-- C5 witness: the frame property applied at a concrete document. -/
theorem c5_witness :
    localeWF pbEx.1 = true ∧ localeWF pbEx.2 = true
  ∧ (updateFrameSpec crmBase
        (socialToJ (buildSocialNetworksBlockList crmBase.socialMedia rnd0 0).1) none
        pbEx.1 (updatePageBlocks pbEx crmBase rnd0 0).1.1
     ∧ updateFrameSpec crmBase
        (socialToJ (buildSocialNetworksBlockList crmBase.socialMedia rnd0 0).1)
        (some "_blank") pbEx.2 (updatePageBlocks pbEx crmBase rnd0 0).1.2) :=
  ⟨rfl, rfl, c5_update_preservation crmBase pbEx rnd0 0 rfl rfl⟩

/-! ### C7: referential closure of generated block lists -/

/-- The sequence of `contentUdi` references of a block-list structure's
`layout`, in order. -/
def layoutUdis (b : JValue) : List (Option JValue) :=
  match getKey (objFields b) "layout" with
  | some lo =>
    match getKey (objFields lo) "Umbraco.BlockList" with
    | some (.jarr xs) => xs.map (fun e => getKey (objFields e) "contentUdi")
    | _ => []
  | _ => []

/-- The sequence of `udi` identifiers of a block-list structure's
`contentData`, in order. -/
def contentUdis (b : JValue) : List (Option JValue) :=
  match getKey (objFields b) "contentData" with
  | some (.jarr xs) => xs.map (fun e => getKey (objFields e) "udi")
  | _ => []

theorem layoutUdis_socialToJ (s : SocialBlockList) :
    layoutUdis (socialToJ s) = s.layout.map (fun u => some (JValue.jstr u)) := by
  show (s.layout.map layoutEntryJ).map (fun e => getKey (objFields e) "contentUdi")
      = s.layout.map (fun u => some (JValue.jstr u))
  rw [List.map_map]
  rfl

theorem contentUdis_socialToJ (s : SocialBlockList) :
    contentUdis (socialToJ s)
      = s.contentData.map (fun c => some (JValue.jstr c.udi)) := by
  show (s.contentData.map socialContentJ).map (fun e => getKey (objFields e) "udi")
      = s.contentData.map (fun c => some (JValue.jstr c.udi))
  rw [List.map_map]
  rfl

/-- C7: in every block-list structure the mapper produces — both per-locale
page-block lists of `buildPageBlocks` and the social-networks block list —
the layout's `contentUdi` sequence and the `contentData`'s `udi` sequence
agree position-wise and in length, for every CRM event and random outcome. -/
theorem c7_referential_closure (crm : CrmEvent) (rnd : Nat → Nat → Nat) (k : Nat) :
    layoutUdis (buildPageBlocks crm rnd k).1.1
        = contentUdis (buildPageBlocks crm rnd k).1.1
  ∧ layoutUdis (buildPageBlocks crm rnd k).1.2
        = contentUdis (buildPageBlocks crm rnd k).1.2
  ∧ (∀ (sm : SocialMedia) (j : Nat),
        (buildSocialNetworksBlockList sm rnd j).1.contentData.map SocialContent.udi
          = (buildSocialNetworksBlockList sm rnd j).1.layout)
  ∧ layoutUdis (socialToJ (buildSocialNetworksBlockList crm.socialMedia rnd k).1)
        = contentUdis (socialToJ (buildSocialNetworksBlockList crm.socialMedia rnd k).1) := by
  refine ⟨rfl, rfl, fun sm j => socialAux_udis _ _ _, ?_⟩
  rw [layoutUdis_socialToJ, contentUdis_socialToJ]
  unfold buildSocialNetworksBlockList
  rw [← socialAux_udis (socialChannels crm.socialMedia) rnd k, List.map_map]
  rfl

/-! ### C10: no mutation of the prior document (heap model)

The pure model above cannot express JS aliasing, so the update path is also
modelled over heap values carrying object identities: every array/object node
has an id, `cloneT` (the JSON round-trip) relabels a structure with fresh
ids from a counter, and the four property writes of `updatePageBlocks` are
recorded as a mutation list targeting object ids.  The value of any tree
after the call is obtained by applying that mutation list to it; the claim
is settled by showing the mutations only target freshly cloned ids, so the
argument trees are unchanged. -/

mutual
inductive HVal where
  | hnull
  | hbool (b : Bool)
  | hstr (s : String)
  | harr (id : Nat) (xs : HList)
  | hobj (id : Nat) (fs : HFields)
inductive HList where
  | hnil
  | hcons (x : HVal) (xs : HList)
inductive HFields where
  | fnil
  | fcons (key : String) (v : HVal) (fs : HFields)
end

mutual
def idUsed : HVal → Nat → Bool
  | .hnull, _ => false
  | .hbool _, _ => false
  | .hstr _, _ => false
  | .harr i xs, n => (i == n) || idUsedL xs n
  | .hobj i fs, n => (i == n) || idUsedF fs n
def idUsedL : HList → Nat → Bool
  | .hnil, _ => false
  | .hcons x xs, n => idUsed x n || idUsedL xs n
def idUsedF : HFields → Nat → Bool
  | .fnil, _ => false
  | .fcons _ v fs, n => idUsed v n || idUsedF fs n
end

mutual
def maxId : HVal → Nat
  | .hnull => 0
  | .hbool _ => 0
  | .hstr _ => 0
  | .harr i xs => max i (maxIdL xs)
  | .hobj i fs => max i (maxIdF fs)
def maxIdL : HList → Nat
  | .hnil => 0
  | .hcons x xs => max (maxId x) (maxIdL xs)
def maxIdF : HFields → Nat
  | .fnil => 0
  | .fcons _ v fs => max (maxId v) (maxIdF fs)
end

/-! The JSON round-trip deep clone: a structurally identical value whose
array/object nodes all receive fresh ids drawn from the counter. -/
mutual
def cloneT : HVal → Nat → HVal × Nat
  | .hnull, n => (.hnull, n)
  | .hbool b, n => (.hbool b, n)
  | .hstr s, n => (.hstr s, n)
  | .harr _ xs, n =>
    let r := cloneL xs (n + 1)
    (.harr n r.1, r.2)
  | .hobj _ fs, n =>
    let r := cloneF fs (n + 1)
    (.hobj n r.1, r.2)
def cloneL : HList → Nat → HList × Nat
  | .hnil, n => (.hnil, n)
  | .hcons x xs, n =>
    let rx := cloneT x n
    let rest := cloneL xs rx.2
    (.hcons rx.1 rest.1, rest.2)
def cloneF : HFields → Nat → HFields × Nat
  | .fnil, n => (.fnil, n)
  | .fcons k v fs, n =>
    let rv := cloneT v n
    let rest := cloneF fs rv.2
    (.fcons k rv.1 rest.1, rest.2)
end

/-- Heap-level property read. -/
def hGetKey : HFields → String → Option HVal
  | .fnil, _ => none
  | .fcons k v fs, key => if k = key then some v else hGetKey fs key

/-- Heap-level property write (overwrite in place or append). -/
def hSetKey : HFields → String → HVal → HFields
  | .fnil, key, v => .fcons key v .fnil
  | .fcons k w fs, key, v =>
    if k = key then .fcons k v fs else .fcons k w (hSetKey fs key v)

/-- Heap-level property deletion. -/
def hRemoveKey : HFields → String → HFields
  | .fnil, _ => .fnil
  | .fcons k w fs, key =>
    if k = key then hRemoveKey fs key else .fcons k w (hRemoveKey fs key)

/-- Heap-level array indexing. -/
def hIndex : HList → Nat → Option HVal
  | .hnil, _ => none
  | .hcons x _, 0 => some x
  | .hcons _ xs, i + 1 => hIndex xs i

/-- Heap-level JS truthiness. -/
def hTruthy : HVal → Bool
  | .hnull => false
  | .hbool b => b
  | .hstr s => s ≠ ""
  | .harr _ _ => true
  | .hobj _ _ => true

/-- A recorded mutation: a property write or deletion on the object with the
targeted id. -/
inductive MutOp where
  | mset (key : String) (v : HVal)
  | mdel (key : String)

/-- Apply one mutation operation to an object's fields. -/
def applyOp (fs : HFields) : MutOp → HFields
  | .mset k v => hSetKey fs k v
  | .mdel k => hRemoveKey fs k

/-! Apply a mutation heap-wide to a tree: every object node whose id is the
target receives the operation. -/
mutual
def applyMutT : HVal → Nat → MutOp → HVal
  | .hnull, _, _ => .hnull
  | .hbool b, _, _ => .hbool b
  | .hstr s, _, _ => .hstr s
  | .harr i xs, tg, op => .harr i (applyMutL xs tg op)
  | .hobj i fs, tg, op =>
    let fs2 := applyMutF fs tg op
    if i = tg then .hobj i (applyOp fs2 op) else .hobj i fs2
def applyMutL : HList → Nat → MutOp → HList
  | .hnil, _, _ => .hnil
  | .hcons x xs, tg, op => .hcons (applyMutT x tg op) (applyMutL xs tg op)
def applyMutF : HFields → Nat → MutOp → HFields
  | .fnil, _, _ => .fnil
  | .fcons k v fs, tg, op => .fcons k (applyMutT v tg op) (applyMutF fs tg op)
end

/-- Apply a mutation list in order. -/
def applyMuts (t : HVal) : List (Nat × MutOp) → HVal
  | [] => t
  | m :: rest => applyMuts (applyMutT t m.1 m.2) rest

/-! Allocate a pure JSON value on the heap (all its nodes tagged `c`; node
identities inside freshly written values are never mutation targets, so one
fresh tag suffices). -/
mutual
def hOfJ (c : Nat) : JValue → HVal
  | .null => .hnull
  | .jbool b => .hbool b
  | .jstr s => .hstr s
  | .jarr xs => .harr c (hOfJL c xs)
  | .jobj fs => .hobj c (hOfJF c fs)
def hOfJL (c : Nat) : List JValue → HList
  | [] => .hnil
  | x :: xs => .hcons (hOfJ c x) (hOfJL c xs)
def hOfJF (c : Nat) : List (String × JValue) → HFields
  | [] => .fnil
  | p :: fs => .fcons p.1 (hOfJ c p.2) (hOfJF c fs)
end

/-- The mutations `updatePageBlocks` performs on one (cloned) locale: if the
`contentData && contentData[1]` guard passes, four property writes target the
block object at index 1 — `description`, `organiserName`, `organiserWebsite`
(written when `websiteURL` is truthy, deleted otherwise) and
`socialNetworks`; otherwise no mutation happens. -/
def localeMutationsH (cloned : HVal) (crm : CrmEvent) (socH descH : HVal)
    (orgH : String → HVal) : List (Nat × MutOp) :=
  match cloned with
  | .hobj _ fs =>
    match hGetKey fs "contentData" with
    | some cd =>
      if hTruthy cd then
        match cd with
        | .harr _ xs =>
          match hIndex xs 1 with
          | some blk =>
            if hTruthy blk then
              match blk with
              | .hobj bid _ =>
                [(bid, .mset "description" descH),
                 (bid, .mset "organiserName" (.hstr crm.eventOrganiser)),
                 (bid, match crm.websiteURL with
                       | some u =>
                         if u = "" then .mdel "organiserWebsite"
                         else .mset "organiserWebsite" (orgH u)
                       | none => .mdel "organiserWebsite"),
                 (bid, .mset "socialNetworks" socH)]
              | _ => []
            else []
          | none => []
        | _ => []
      else []
    | none => []
  | _ => []

/-- The result of the heap-level update: the two locale values after the
call, the mutation list performed, and the next fresh id. -/
structure UpdateHeapResult where
  enVal : HVal
  arVal : HVal
  muts : List (Nat × MutOp)
  next : Nat

/-- `updatePageBlocks` in the heap model: build the new social structure,
deep-clone both locales (fresh ids from `n`), record the per-locale
mutations (which target objects inside the clones), and apply them
heap-wide.  The value of any pre-existing tree after the call is
`applyMuts` of that tree. -/
def updatePageBlocksH (pbEn pbAr : HVal) (crm : CrmEvent)
    (rnd : Nat → Nat → Nat) (k n : Nat) : UpdateHeapResult :=
  let socJ := socialToJ (buildSocialNetworksBlockList crm.socialMedia rnd k).1
  let socH := hOfJ n socJ
  let c1 := cloneT pbEn (n + 1)
  let c2 := cloneT pbAr c1.2
  let descH := hOfJ c2.2 (descriptionJ crm)
  let enMuts := localeMutationsH c1.1 crm socH descH
      (fun u => hOfJ (c2.2 + 1) (organiserWebsiteJ u none))
  let arMuts := localeMutationsH c2.1 crm socH descH
      (fun u => hOfJ (c2.2 + 2) (organiserWebsiteJ u (some "_blank")))
  let muts := enMuts ++ arMuts
  ⟨applyMuts c1.1 muts, applyMuts c2.1 muts, muts, c2.2 + 3⟩

mutual
theorem idUsed_le_maxId : ∀ (t : HVal) (m : Nat), idUsed t m = true → m ≤ maxId t
  | .hnull, m, h => by simp [idUsed] at h
  | .hbool b, m, h => by simp [idUsed] at h
  | .hstr s, m, h => by simp [idUsed] at h
  | .harr i xs, m, h => by
    simp only [idUsed, Bool.or_eq_true, beq_iff_eq] at h
    rcases h with h | h
    · simp [maxId, h.symm, Nat.le_max_left]
    · have := idUsedL_le_maxIdL xs m h
      simp only [maxId]
      omega
  | .hobj i fs, m, h => by
    simp only [idUsed, Bool.or_eq_true, beq_iff_eq] at h
    rcases h with h | h
    · simp [maxId, h.symm, Nat.le_max_left]
    · have := idUsedF_le_maxIdF fs m h
      simp only [maxId]
      omega
theorem idUsedL_le_maxIdL : ∀ (xs : HList) (m : Nat), idUsedL xs m = true → m ≤ maxIdL xs
  | .hnil, m, h => by simp [idUsedL] at h
  | .hcons x xs, m, h => by
    simp only [idUsedL, Bool.or_eq_true] at h
    rcases h with h | h
    · have := idUsed_le_maxId x m h
      simp only [maxIdL]
      omega
    · have := idUsedL_le_maxIdL xs m h
      simp only [maxIdL]
      omega
theorem idUsedF_le_maxIdF : ∀ (fs : HFields) (m : Nat), idUsedF fs m = true → m ≤ maxIdF fs
  | .fnil, m, h => by simp [idUsedF] at h
  | .fcons k v fs, m, h => by
    simp only [idUsedF, Bool.or_eq_true] at h
    rcases h with h | h
    · have := idUsed_le_maxId v m h
      simp only [maxIdF]
      omega
    · have := idUsedF_le_maxIdF fs m h
      simp only [maxIdF]
      omega
end

mutual
theorem cloneT_le : ∀ (t : HVal) (n : Nat), n ≤ (cloneT t n).2
  | .hnull, n => Nat.le_refl n
  | .hbool b, n => Nat.le_refl n
  | .hstr s, n => Nat.le_refl n
  | .harr i xs, n => by
    have := cloneL_le xs (n + 1)
    simp only [cloneT]
    omega
  | .hobj i fs, n => by
    have := cloneF_le fs (n + 1)
    simp only [cloneT]
    omega
theorem cloneL_le : ∀ (xs : HList) (n : Nat), n ≤ (cloneL xs n).2
  | .hnil, n => Nat.le_refl n
  | .hcons x xs, n => by
    have h1 := cloneT_le x n
    have h2 := cloneL_le xs (cloneT x n).2
    simp only [cloneL]
    omega
theorem cloneF_le : ∀ (fs : HFields) (n : Nat), n ≤ (cloneF fs n).2
  | .fnil, n => Nat.le_refl n
  | .fcons k v fs, n => by
    have h1 := cloneT_le v n
    have h2 := cloneF_le fs (cloneT v n).2
    simp only [cloneF]
    omega
end

mutual
theorem cloneT_fresh : ∀ (t : HVal) (n m : Nat), idUsed (cloneT t n).1 m = true → n ≤ m
  | .hnull, n, m, h => by simp [cloneT, idUsed] at h
  | .hbool b, n, m, h => by simp [cloneT, idUsed] at h
  | .hstr s, n, m, h => by simp [cloneT, idUsed] at h
  | .harr i xs, n, m, h => by
    simp only [cloneT, idUsed, Bool.or_eq_true, beq_iff_eq] at h
    rcases h with h | h
    · omega
    · have := cloneL_fresh xs (n + 1) m h
      omega
  | .hobj i fs, n, m, h => by
    simp only [cloneT, idUsed, Bool.or_eq_true, beq_iff_eq] at h
    rcases h with h | h
    · omega
    · have := cloneF_fresh fs (n + 1) m h
      omega
theorem cloneL_fresh : ∀ (xs : HList) (n m : Nat), idUsedL (cloneL xs n).1 m = true → n ≤ m
  | .hnil, n, m, h => by simp [cloneL, idUsedL] at h
  | .hcons x xs, n, m, h => by
    simp only [cloneL, idUsedL, Bool.or_eq_true] at h
    rcases h with h | h
    · exact cloneT_fresh x n m h
    · have h1 := cloneT_le x n
      have := cloneL_fresh xs (cloneT x n).2 m h
      omega
theorem cloneF_fresh : ∀ (fs : HFields) (n m : Nat), idUsedF (cloneF fs n).1 m = true → n ≤ m
  | .fnil, n, m, h => by simp [cloneF, idUsedF] at h
  | .fcons k v fs, n, m, h => by
    simp only [cloneF, idUsedF, Bool.or_eq_true] at h
    rcases h with h | h
    · exact cloneT_fresh v n m h
    · have h1 := cloneT_le v n
      have := cloneF_fresh fs (cloneT v n).2 m h
      omega
end

mutual
theorem applyMutT_id : ∀ (t : HVal) (tg : Nat) (op : MutOp),
    idUsed t tg = false → applyMutT t tg op = t
  | .hnull, _, _, _ => rfl
  | .hbool b, _, _, _ => rfl
  | .hstr s, _, _, _ => rfl
  | .harr i xs, tg, op, h => by
    simp only [idUsed, Bool.or_eq_false_iff] at h
    simp only [applyMutT, applyMutL_id xs tg op h.2]
  | .hobj i fs, tg, op, h => by
    simp only [idUsed, Bool.or_eq_false_iff, beq_eq_false_iff_ne] at h
    simp only [applyMutT, if_neg h.1, applyMutF_id fs tg op h.2]
theorem applyMutL_id : ∀ (xs : HList) (tg : Nat) (op : MutOp),
    idUsedL xs tg = false → applyMutL xs tg op = xs
  | .hnil, _, _, _ => rfl
  | .hcons x xs, tg, op, h => by
    simp only [idUsedL, Bool.or_eq_false_iff] at h
    simp only [applyMutL, applyMutT_id x tg op h.1, applyMutL_id xs tg op h.2]
theorem applyMutF_id : ∀ (fs : HFields) (tg : Nat) (op : MutOp),
    idUsedF fs tg = false → applyMutF fs tg op = fs
  | .fnil, _, _, _ => rfl
  | .fcons k v fs, tg, op, h => by
    simp only [idUsedF, Bool.or_eq_false_iff] at h
    simp only [applyMutF, applyMutT_id v tg op h.1, applyMutF_id fs tg op h.2]
end

theorem applyMuts_id (t : HVal) (ms : List (Nat × MutOp))
    (h : ∀ p ∈ ms, idUsed t p.1 = false) : applyMuts t ms = t := by
  induction ms with
  | nil => rfl
  | cons m rest ih =>
    have hm := h m (List.mem_cons_self _ _)
    rw [applyMuts, applyMutT_id t m.1 m.2 hm]
    exact ih fun p hp => h p (List.mem_cons_of_mem _ hp)

theorem hGetKey_idUsed : ∀ (fs : HFields) (key : String) (v : HVal),
    hGetKey fs key = some v → ∀ m : Nat, idUsed v m = true → idUsedF fs m = true
  | .fnil, key, v, hv, m, hm => by simp [hGetKey] at hv
  | .fcons k w fs, key, v, hv, m, hm => by
    by_cases hk : k = key
    · simp only [hGetKey, if_pos hk] at hv
      cases hv
      simp [idUsedF, hm]
    · simp only [hGetKey, if_neg hk] at hv
      simp [idUsedF, hGetKey_idUsed fs key v hv m hm]

theorem hIndex_idUsed : ∀ (xs : HList) (i : Nat) (v : HVal),
    hIndex xs i = some v → ∀ m : Nat, idUsed v m = true → idUsedL xs m = true
  | .hnil, i, v, hv, m, hm => by simp [hIndex] at hv
  | .hcons x xs, 0, v, hv, m, hm => by
    simp only [hIndex] at hv
    cases hv
    simp [idUsedL, hm]
  | .hcons x xs, i + 1, v, hv, m, hm => by
    simp only [hIndex] at hv
    simp [idUsedL, hIndex_idUsed xs i v hv m hm]

theorem localeMutationsH_targets (cloned : HVal) (crm : CrmEvent)
    (socH descH : HVal) (orgH : String → HVal) :
    ∀ p ∈ localeMutationsH cloned crm socH descH orgH,
      idUsed cloned p.1 = true := by
  intro p hp
  cases cloned with
  | hnull => simp [localeMutationsH] at hp
  | hbool b => simp [localeMutationsH] at hp
  | hstr s => simp [localeMutationsH] at hp
  | harr i xs => simp [localeMutationsH] at hp
  | hobj i fs =>
    cases hcd : hGetKey fs "contentData" with
    | none => simp [localeMutationsH, hcd] at hp
    | some cd =>
      by_cases ht : hTruthy cd = true
      · cases cd with
        | hnull => simp [hTruthy] at ht
        | hbool x => simp [localeMutationsH, hcd, ht] at hp
        | hstr x => simp [localeMutationsH, hcd, ht] at hp
        | hobj j gs => simp [localeMutationsH, hcd, ht] at hp
        | harr j xs =>
          cases hx : hIndex xs 1 with
          | none => simp [localeMutationsH, hcd, ht, hx] at hp
          | some blk =>
            by_cases hb : hTruthy blk = true
            · cases blk with
              | hnull => simp [hTruthy] at hb
              | hbool x => simp [localeMutationsH, hcd, ht, hx, hb] at hp
              | hstr x => simp [localeMutationsH, hcd, ht, hx, hb] at hp
              | harr bj bxs => simp [localeMutationsH, hcd, ht, hx, hb] at hp
              | hobj bid bfs =>
                have htarget : p.1 = bid := by
                  simp [localeMutationsH, hcd, ht, hx, hb] at hp
                  rcases hp with rfl | rfl | rfl | rfl <;> rfl
                have hv1 : idUsed (HVal.hobj bid bfs) bid = true := by
                  simp [idUsed]
                have hv2 : idUsedL xs bid = true :=
                  hIndex_idUsed xs 1 _ hx bid hv1
                have hv3 : idUsed (HVal.harr j xs) bid = true := by
                  simp [idUsed, hv2]
                have hv4 : idUsedF fs bid = true :=
                  hGetKey_idUsed fs _ _ hcd bid hv3
                rw [htarget]
                simp [idUsed, hv4]
            · simp [localeMutationsH, hcd, ht, hx, hb] at hp
      · simp [localeMutationsH, hcd, ht] at hp

/-- C10: the heap-level update only mutates objects inside the freshly
cloned structures, so the mutation list it performs leaves every
pre-existing tree — in particular both locales of the `existingPageBlocks`
argument — unchanged: their observable values after the call equal their
values before it. -/
theorem c10_no_mutation (pbEn pbAr : HVal) (crm : CrmEvent)
    (rnd : Nat → Nat → Nat) (k n : Nat)
    (h1 : maxId pbEn < n) (h2 : maxId pbAr < n) :
    applyMuts pbEn (updatePageBlocksH pbEn pbAr crm rnd k n).muts = pbEn
  ∧ applyMuts pbAr (updatePageBlocksH pbEn pbAr crm rnd k n).muts = pbAr := by
  have htg : ∀ p ∈ (updatePageBlocksH pbEn pbAr crm rnd k n).muts, n + 1 ≤ p.1 := by
    intro p hp
    simp only [updatePageBlocksH] at hp
    rcases List.mem_append.mp hp with h | h
    · have := localeMutationsH_targets _ crm _ _ _ p h
      exact cloneT_fresh pbEn (n + 1) p.1 this
    · have hu := localeMutationsH_targets _ crm _ _ _ p h
      have h3 := cloneT_fresh pbAr (cloneT pbEn (n + 1)).2 p.1 hu
      have h4 := cloneT_le pbEn (n + 1)
      omega
  constructor
  · apply applyMuts_id
    intro p hp
    cases hused : idUsed pbEn p.1
    · rfl
    · have ha := idUsed_le_maxId pbEn p.1 hused
      have hb := htg p hp
      omega
  · apply applyMuts_id
    intro p hp
    cases hused : idUsed pbAr p.1
    · rfl
    · have ha := idUsed_le_maxId pbAr p.1 hused
      have hb := htg p hp
      omega

/-- A concrete heap-level English locale (ids 0–3). -/
def pbEnH : HVal :=
  .hobj 0 (.fcons "contentData"
    (.harr 1 (.hcons (.hobj 2 .fnil)
      (.hcons (.hobj 3 (.fcons "udi" (.hstr "umb://element/d1") .fnil)) .hnil)))
    .fnil)

/-- A concrete heap-level Arabic locale (ids 4–7). -/
def pbArH : HVal :=
  .hobj 4 (.fcons "contentData"
    (.harr 5 (.hcons (.hobj 6 .fnil)
      (.hcons (.hobj 7 (.fcons "udi" (.hstr "umb://element/d2") .fnil)) .hnil)))
    .fnil)

/-- C10 witness: at a concrete document and counter, both argument trees are
left unchanged by the update's mutation list. -/
theorem c10_witness :
    maxId pbEnH < 10 ∧ maxId pbArH < 10
  ∧ (applyMuts pbEnH (updatePageBlocksH pbEnH pbArH crmBase rnd0 0 10).muts = pbEnH
     ∧ applyMuts pbArH (updatePageBlocksH pbEnH pbArH crmBase rnd0 0 10).muts = pbArH) :=
  ⟨by decide, by decide,
   c10_no_mutation pbEnH pbArH crmBase rnd0 0 10 (by decide) (by decide)⟩

end EventSync
